import Mathlib

/-!
Verification development for the stealth-capture pipeline of the
Whatsapp-HybridBot repository (src/services/stealth-logger.js,
src/utils/helpers.js, and the account-manager dispatch).

The JavaScript code is shallowly embedded: JS `Map` objects become
insertion-ordered association lists (so that the map iteration order,
on which the eviction logic of cacheTextMessage relies, is represented
faithfully), the temp-file directory becomes a list of (path, mtime)
entries, timestamps are naturals (milliseconds), and the external
collaborators (media download, vault transport send) are modelled by
boolean outcome parameters.  Unicode NFKD normalization inside
matchesGroupName is modelled as the identity, which is exact on the
ASCII strings considered here.
-/

namespace StealthBot

/-- A byte sequence (Buffer / Uint8Array) modelled as a list of bytes. -/
abbrev Bytes := List Nat

/-- A media message object as consumed by isMediaDownloadable and the
download path (imageMessage / videoMessage / audioMessage /
documentMessage / stickerMessage payloads). `none` fields are absent
(undefined) fields of the JS object. -/
structure MediaObj where
  mediaKey : Option Bytes
  fileEncSha256 : Option Bytes
  directPath : Option String
  url : Option String
  caption : Option String
  viewOnce : Bool
  mimetype : Option String
  fileName : Option String
deriving DecidableEq

/-- The message content object (`message.message`).  The view-once
wrappers hold `Option (Option MsgContent)`: the outer option is the
presence of the wrapper object itself, the inner option is its
`.message` field.  `extendedText` models `extendedTextMessage?.text`. -/
inductive MsgContent : Type where
  | mk
    (conversation : Option String)
    (extendedText : Option String)
    (imageMessage : Option MediaObj)
    (videoMessage : Option MediaObj)
    (audioMessage : Option MediaObj)
    (documentMessage : Option MediaObj)
    (stickerMessage : Option MediaObj)
    (viewOnceMessage : Option (Option MsgContent))
    (viewOnceMessageV2 : Option (Option MsgContent))
    (viewOnceMessageV2Extension : Option (Option MsgContent))
    (ephemeralMessage : Option (Option MsgContent))
    : MsgContent

def MsgContent.conversation : MsgContent → Option String
  | .mk c _ _ _ _ _ _ _ _ _ _ => c

def MsgContent.extendedText : MsgContent → Option String
  | .mk _ e _ _ _ _ _ _ _ _ _ => e

def MsgContent.imageMessage : MsgContent → Option MediaObj
  | .mk _ _ i _ _ _ _ _ _ _ _ => i

def MsgContent.videoMessage : MsgContent → Option MediaObj
  | .mk _ _ _ v _ _ _ _ _ _ _ => v

def MsgContent.audioMessage : MsgContent → Option MediaObj
  | .mk _ _ _ _ a _ _ _ _ _ _ => a

def MsgContent.documentMessage : MsgContent → Option MediaObj
  | .mk _ _ _ _ _ d _ _ _ _ _ => d

def MsgContent.stickerMessage : MsgContent → Option MediaObj
  | .mk _ _ _ _ _ _ s _ _ _ _ => s

def MsgContent.viewOnceMessage : MsgContent → Option (Option MsgContent)
  | .mk _ _ _ _ _ _ _ w _ _ _ => w

def MsgContent.viewOnceMessageV2 : MsgContent → Option (Option MsgContent)
  | .mk _ _ _ _ _ _ _ _ w _ _ => w

def MsgContent.viewOnceMessageV2Extension : MsgContent → Option (Option MsgContent)
  | .mk _ _ _ _ _ _ _ _ _ w _ => w

def MsgContent.ephemeralMessage : MsgContent → Option (Option MsgContent)
  | .mk _ _ _ _ _ _ _ _ _ _ e => e

/-- `message.key`. -/
structure MsgKey where
  id : String
  remoteJid : String
  participant : Option String
  fromMe : Bool
deriving DecidableEq

/-- A Baileys message as seen by the stealth logger. -/
structure Message where
  key : MsgKey
  message : Option MsgContent
  messageTimestamp : Nat

/-- The per-account stealth-logger configuration surface
(config fields consumed by StealthLoggerService plus the
MASK_PHONE_NUMBERS environment toggle and the account temp dir). -/
structure Config where
  excludedGroups : List String
  maxTextCache : Nat
  statusCacheDuration : Option Nat
  mediaCacheDuration : Option Nat
  vaultNumber : Option String
  maskEnabled : Bool
  tempStorage : String

inductive MediaType : Type where
  | image | video | audio | document | sticker
deriving DecidableEq

/-- An entry of this.textCache. -/
structure TextRecord where
  text : String
  sender : String
  senderId : String
  timestamp : Nat
  groupName : Option String
  isStatus : Bool
  cachedAt : Nat
deriving DecidableEq

/-- An entry of this.mediaCache. -/
structure MediaRecord where
  filepath : String
  mtype : MediaType
  sender : String
  senderId : String
  timestamp : Nat
  groupName : Option String
  caption : String
  isStatus : Bool
  savedAt : Nat
deriving DecidableEq

/-- The mutable state of one StealthLoggerService instance: the two
caches as insertion-ordered association lists (JS Map semantics), the
temp-storage directory as (path, mtime) entries, and the counter that
stands in for generateId. -/
structure LoggerState where
  textCache : List (String × TextRecord)
  mediaCache : List (String × MediaRecord)
  files : List (String × Nat)
  nextId : Nat
deriving DecidableEq

def initialState : LoggerState := ⟨[], [], [], 0⟩

/-- One outbound vault transport send (client.sendMessage /
sock.sendMessage) with the fields the forwarder puts into it. -/
inductive ForwardCall : Type where
  | text (content : String) (maskedId : String) (sender : String)
      (groupName : Option String)
  | media (mtype : MediaType) (maskedId : String) (sender : String)
      (groupName : Option String) (caption : String) (isDeleted : Bool)
      (filepath : String)
deriving DecidableEq

/-- Result of running one handler: the new state, the vault sends it
performed, and the media objects it passed to downloadMediaMessage. -/
structure StepResult where
  state : LoggerState
  forwards : List ForwardCall
  downloads : List MediaObj
deriving DecidableEq

def noopR (st : LoggerState) : StepResult := ⟨st, [], []⟩

/-! ### JS Map semantics on association lists -/

/-- Map.get. -/
def mapGet (m : List (String × α)) (k : String) : Option α :=
  (m.find? (fun p => p.1 == k)).map (fun p => p.2)

/-- Map.set: overwrite in place (keeping insertion position) when the
key is present, otherwise append at the end. -/
def mapSet (m : List (String × α)) (k : String) (v : α) : List (String × α) :=
  if m.any (fun p => p.1 == k) then
    m.map (fun p => if p.1 == k then (k, v) else p)
  else m ++ [(k, v)]

/-- Map.delete. -/
def mapDelete (m : List (String × α)) (k : String) : List (String × α) :=
  m.filter (fun p => !(p.1 == k))

/-! ### Temp-storage directory model -/

def hasFile (fs : List (String × Nat)) (p : String) : Bool :=
  fs.any (fun e => e.1 == p)

def setFile (fs : List (String × Nat)) (p : String) (mtime : Nat) :
    List (String × Nat) :=
  if fs.any (fun e => e.1 == p) then
    fs.map (fun e => if e.1 == p then (p, mtime) else e)
  else fs ++ [(p, mtime)]

def removeFile (fs : List (String × Nat)) (p : String) : List (String × Nat) :=
  fs.filter (fun e => !(e.1 == p))

/-! ### helpers.js -/

/-- JS `a || b` for an optional/possibly-empty string (empty string is
falsy). -/
def jsOrStr (a : Option String) (b : String) : String :=
  match a with
  | some s => if s == "" then b else s
  | none => b

/-- JS `a || b` for a possibly-absent/zero number (0 is falsy); used
for the constructor defaults of the cache durations. -/
def jsOrNat (a : Option Nat) (b : Nat) : Nat :=
  match a with
  | some n => if n == 0 then b else n
  | none => b

/-- Characters up to (excluding) the first occurrence of `c`;
models `s.split(c)[0]`. -/
def takeUntil (c : Char) : List Char → List Char
  | [] => []
  | a :: as => if a == c then [] else a :: takeUntil c as

/-- helpers.js getPhoneFromJid: jid.split(at)[0].split(colon)[0]. -/
def getPhoneFromJid (jid : String) : String :=
  if jid == "" then ""
  else String.mk (takeUntil ':' (takeUntil '@' jid.toList))

/-- stealth-logger.js sanitizeJid. -/
def sanitizeJid (jid : String) : String :=
  if jid == "" then ""
  else String.mk (takeUntil ':' (takeUntil '@' jid.toList)) ++ "@s.whatsapp.net"

/-- helpers.js maskPhoneNumber; `enabled` is
process.env.MASK_PHONE_NUMBERS === .true. -/
def maskPhoneNumber (enabled : Bool) (p : String) : String :=
  if p == "" || p.length < 4 then p
  else if !enabled then p
  else "XXXXXX" ++ String.mk (p.toList.drop (p.length - 4))

/-- helpers.js getMessageContent: conversation ||
extendedTextMessage?.text || imageMessage?.caption ||
videoMessage?.caption || documentMessage?.caption || empty. -/
def getMessageContent (m : Option MsgContent) : String :=
  match m with
  | none => ""
  | some c =>
    jsOrStr c.conversation
      (jsOrStr c.extendedText
        (jsOrStr (c.imageMessage.bind MediaObj.caption)
          (jsOrStr (c.videoMessage.bind MediaObj.caption)
            (jsOrStr (c.documentMessage.bind MediaObj.caption) ""))))

/-! ### Group-name matching (helpers.js matchesGroupName) -/

/-- The characters stripped from the ends of a name:
double quote, apostrophe, backtick. -/
def quoteChars : List Char := [Char.ofNat 34, Char.ofNat 39, Char.ofNat 96]

/-- The characters replaced by an apostrophe everywhere:
right single quote, left single quote, backtick, acute accent. -/
def fancyChars : List Char :=
  [Char.ofNat 8217, Char.ofNat 8216, Char.ofNat 96, Char.ofNat 180]

def isWs (c : Char) : Bool := c.isWhitespace

/-- Collapse every whitespace run into a single space
(the `\s+` to space replace). -/
def collapseWs (l : List Char) : List Char :=
  (l.foldl
    (fun (acc : List Char × Bool) c =>
      if isWs c then
        if acc.2 then acc else (Char.ofNat 32 :: acc.1, true)
      else (c :: acc.1, false))
    ([], false)).1.reverse

def stripQuoteEnds (l : List Char) : List Char :=
  ((l.dropWhile (fun c => quoteChars.contains c)).reverse.dropWhile
    (fun c => quoteChars.contains c)).reverse

def replaceFancy (l : List Char) : List Char :=
  l.map (fun c => if fancyChars.contains c then Char.ofNat 39 else c)

def trimChars (l : List Char) : List Char :=
  ((l.dropWhile isWs).reverse.dropWhile isWs).reverse

def lowerChars (l : List Char) : List Char := l.map Char.toLower

/-- The normalize closure inside matchesGroupName.  NFKD is modelled
as the identity (exact for ASCII input). -/
def normalizeName (s : String) : List Char :=
  lowerChars (trimChars (collapseWs (replaceFancy (stripQuoteEnds s.toList))))

/-- `needle` is a prefix-shaped match at the head of `hay`. -/
def listStarts : List Char → List Char → Bool
  | _, [] => true
  | [], _ :: _ => false
  | a :: as, b :: bs => a == b && listStarts as bs

/-- JS String.includes on char lists. -/
def strHasSub (hay needle : List Char) : Bool :=
  match hay with
  | [] => needle.isEmpty
  | _ :: t => listStarts hay needle || strHasSub t needle

/-- helpers.js matchesGroupName. -/
def matchesGroupName (groupName : String) (groupList : List String) : Bool :=
  if groupName == "" || groupList.isEmpty then false
  else
    let ngn := normalizeName groupName
    groupList.any fun p =>
      let np := normalizeName p
      if np.isEmpty then false
      else strHasSub ngn np || strHasSub np ngn

/-- stealth-logger.js isGroupExcluded. -/
def isGroupExcluded (cfg : Config) (groupName : String) : Bool :=
  if groupName == "" || cfg.excludedGroups.isEmpty then false
  else matchesGroupName groupName cfg.excludedGroups

/-- The guard `groupName && this.isGroupExcluded(groupName)` at the
top of every handler (empty string group names are falsy in JS). -/
def excludedCheck (cfg : Config) (groupName : Option String) : Bool :=
  match groupName with
  | none => false
  | some g => (!(g == "")) && isGroupExcluded cfg g

/-! ### Retention policy (constructor defaults and cleanup tiers) -/

/-- STATUS_CACHE_DURATION = config.statusCacheDuration || 86400000. -/
def statusDuration (cfg : Config) : Nat := jsOrNat cfg.statusCacheDuration 86400000

/-- MEDIA_CACHE_DURATION = config.mediaCacheDuration || 244800000. -/
def mediaDuration (cfg : Config) : Nat := jsOrNat cfg.mediaCacheDuration 244800000

/-- TEXT_CACHE_DURATION, hard-coded to 3 hours. -/
def textDuration : Nat := 10800000

/-- The max age applied to a media-cache entry by cleanup. -/
def mediaMaxAge (cfg : Config) (r : MediaRecord) : Nat :=
  if r.isStatus then statusDuration cfg else mediaDuration cfg

/-- The max age applied to a text-cache entry by cleanup. -/
def textMaxAge (cfg : Config) (r : TextRecord) : Nat :=
  if r.isStatus then statusDuration cfg else textDuration

/-- Directory entry name of a path (the part after the last slash). -/
def baseName (p : String) : String :=
  String.mk ((takeUntil '/' p.toList.reverse).reverse)

/-- The temp-directory scan tiers files by filename tag:
status- and view-once- files use the status duration. -/
def scanIsStatusFile (name : String) : Bool :=
  listStarts name.toList "status-".toList ||
    listStarts name.toList "view-once-".toList

/-- The max age the temp-directory scan applies to a file path. -/
def scanMaxAge (cfg : Config) (p : String) : Nat :=
  if scanIsStatusFile (baseName p) then statusDuration cfg else mediaDuration cfg

/-! ### Media validation (stealth-logger.js lines 271-309) -/

/-- _isValidEncryptionKey: a Buffer/Uint8Array with content. -/
def isValidEncryptionKey (k : Option Bytes) : Bool :=
  match k with
  | none => false
  | some bs => !bs.isEmpty

/-- _isValidUrl: a string whose trim is non-empty. -/
def isValidUrl (u : Option String) : Bool :=
  match u with
  | none => false
  | some s => !(trimChars s.toList).isEmpty

/-- isMediaDownloadable. -/
def isMediaDownloadable (m : Option MediaObj) : Bool :=
  match m with
  | none => false
  | some mm =>
    (isValidEncryptionKey mm.mediaKey || isValidEncryptionKey mm.fileEncSha256) &&
      (isValidUrl mm.directPath || isValidUrl mm.url)

/-! ### cacheTextMessage (stealth-logger.js lines 117-152) -/

/-- The record cacheTextMessage builds. -/
def mkTextRecord (msg : Message) (senderName : String)
    (groupName : Option String) (now : Nat) : TextRecord :=
  { text := getMessageContent msg.message
    sender := senderName
    senderId := sanitizeJid (jsOrStr msg.key.participant msg.key.remoteJid)
    timestamp := msg.messageTimestamp
    groupName := groupName
    isStatus := msg.key.remoteJid == "status@broadcast"
    cachedAt := now }

/-- The capacity check of cacheTextMessage: when the cache has reached
maxTextCache, Map.delete of the first iteration-order key
(keys().next().value); on an empty map that key is undefined and the
delete is a no-op. -/
def textEvict (cfg : Config) (tc : List (String × TextRecord)) :
    List (String × TextRecord) :=
  if cfg.maxTextCache ≤ tc.length then
    match tc with
    | [] => tc
    | h :: _ => mapDelete tc h.1
  else tc

/-- cacheTextMessage: exclusion guard, text/fromMe guard, eviction of
the first map entry when at capacity, then Map.set. -/
def cacheTextMessage (cfg : Config) (st : LoggerState) (msg : Message)
    (senderName : String) (groupName : Option String) (now : Nat) :
    LoggerState :=
  if excludedCheck cfg groupName then st
  else if getMessageContent msg.message == "" || msg.key.fromMe then st
  else
    { st with textCache :=
        (mapSet (textEvict cfg st.textCache) msg.key.id
          (mkTextRecord msg senderName groupName now)) }

/-! ### cacheMediaMessage (stealth-logger.js lines 319-422) -/

/-- Audio extension choice: mimetype?.includes(ogg). -/
def audioExt (mm : MediaObj) : String :=
  match mm.mimetype with
  | some s => if strHasSub s.toList "ogg".toList then "ogg" else "mp3"
  | none => "mp3"

/-- Index of the last dot in a filename. -/
def lastDotIdx (cs : List Char) : Option Nat :=
  (((cs.enum.filter (fun p => p.2 == '.')).map (fun p => p.1)).getLast?)

/-- Document extension extraction (lastIndexOf dot handling). -/
def docExt (mm : MediaObj) : String :=
  let cs := (jsOrStr mm.fileName "").toList
  match lastDotIdx cs with
  | some i =>
    if 0 < i ∧ i < cs.length - 1 then String.mk (cs.drop (i + 1)) else "bin"
  | none => "bin"

/-- The media-type detection chain of cacheMediaMessage
(image, video, audio, document, sticker — first match wins), returning
the type, the media object, the file extension, and the caption. -/
def detectMediaType (c : MsgContent) :
    Option (MediaType × MediaObj × String × String) :=
  match c.imageMessage with
  | some mm => some (.image, mm, "jpg", jsOrStr mm.caption "")
  | none =>
    match c.videoMessage with
    | some mm => some (.video, mm, "mp4", jsOrStr mm.caption "")
    | none =>
      match c.audioMessage with
      | some mm => some (.audio, mm, audioExt mm, "")
      | none =>
        match c.documentMessage with
        | some mm => some (.document, mm, docExt mm, jsOrStr mm.caption "")
        | none =>
          match c.stickerMessage with
          | some mm => some (.sticker, mm, "webp", "")
          | none => none

/-- cacheMediaMessage.  `downloadOk` models whether
client.downloadMediaMessage returned a buffer.  The `downloads` field
of the result lists the media objects handed to the download call. -/
def cacheMediaMessage (cfg : Config) (st : LoggerState) (msg : Message)
    (senderName : String) (groupName : Option String) (now : Nat)
    (downloadOk : Bool) : StepResult :=
  if excludedCheck cfg groupName then noopR st
  else if msg.key.fromMe then noopR st
  else
    match msg.message with
    | none => noopR st
    | some mc =>
      match detectMediaType mc with
      | none => noopR st
      | some (mt, mm, ext, cap) =>
        if !(isMediaDownloadable (some mm)) then noopR st
        else if !downloadOk then ⟨st, [], [mm]⟩
        else
          let isStatus := msg.key.remoteJid == "status@broadcast"
          let fileTag := if isStatus then "status" else "media"
          let filename := fileTag ++ "-" ++ toString st.nextId ++ "." ++ ext
          let filepath := cfg.tempStorage ++ "/" ++ filename
          let senderId := sanitizeJid (jsOrStr msg.key.participant msg.key.remoteJid)
          let r : MediaRecord :=
            ⟨filepath, mt, senderName, senderId, msg.messageTimestamp,
              groupName, cap, isStatus, now⟩
          ⟨{ st with
              files := setFile st.files filepath now
              mediaCache := mapSet st.mediaCache msg.key.id r
              nextId := st.nextId + 1 }, [], [mm]⟩

/-! ### Vault forwarder (stealth-logger.js lines 683-814) -/

/-- sendTextToVault: returns the transport sends it performed (the
send is skipped when no vault number is configured; a transport error
is caught and ignored, so the caller sees no outcome either way). -/
def sendTextToVault (cfg : Config) (data : TextRecord) : List ForwardCall :=
  match cfg.vaultNumber with
  | none => []
  | some _ =>
    [ForwardCall.text data.text
      (maskPhoneNumber cfg.maskEnabled (getPhoneFromJid data.senderId))
      data.sender data.groupName]

/-- sendMediaToVault: returns (success, transport sends).  Fails
without sending when no vault number is configured or when reading the
backing file throws (the path is not on disk); otherwise the send is
attempted and `sendOk` models whether the transport succeeded. -/
def sendMediaToVault (cfg : Config) (files : List (String × Nat))
    (data : MediaRecord) (isDeleted : Bool) (sendOk : Bool) :
    Bool × List ForwardCall :=
  match cfg.vaultNumber with
  | none => (false, [])
  | some _ =>
    if hasFile files data.filepath then
      (sendOk,
        [ForwardCall.media data.mtype
          (maskPhoneNumber cfg.maskEnabled (getPhoneFromJid data.senderId))
          data.sender data.groupName data.caption isDeleted data.filepath])
    else (false, [])

/-! ### captureViewOnce (stealth-logger.js lines 433-550) -/

/-- Content with only an image field (the object literal built for the
viewOnce-flag variants). -/
def onlyImage (mo : Option MediaObj) : MsgContent :=
  .mk none none mo none none none none none none none none

def onlyVideo (mo : Option MediaObj) : MsgContent :=
  .mk none none none mo none none none none none none none

def onlyAudio (mo : Option MediaObj) : MsgContent :=
  .mk none none none none mo none none none none none none

/-- The view-once content extraction of captureViewOnce: wrapper
variants first (viewOnceMessage || viewOnceMessageV2 ||
viewOnceMessageV2Extension, taking the wrapper message), else the
viewOnce boolean flag directly on the media object. -/
def voContent (m : Option MsgContent) : Option MsgContent :=
  match m with
  | none => none
  | some c =>
    match c.viewOnceMessage <|> c.viewOnceMessageV2 <|> c.viewOnceMessageV2Extension with
    | some inner => inner
    | none =>
      if (c.imageMessage.map MediaObj.viewOnce).getD false then
        some (onlyImage c.imageMessage)
      else if (c.videoMessage.map MediaObj.viewOnce).getD false then
        some (onlyVideo c.videoMessage)
      else if (c.audioMessage.map MediaObj.viewOnce).getD false then
        some (onlyAudio c.audioMessage)
      else none

/-- The media selection of captureViewOnce (image, video, audio ogg). -/
def voPick (c : MsgContent) : Option (MediaType × MediaObj × String × String) :=
  match c.imageMessage with
  | some mm => some (.image, mm, "jpg", jsOrStr mm.caption "")
  | none =>
    match c.videoMessage with
    | some mm => some (.video, mm, "mp4", jsOrStr mm.caption "")
    | none =>
      match c.audioMessage with
      | some mm => some (.audio, mm, "ogg", "")
      | none => none

/-- captureViewOnce: extract, validate, download, write the temp file,
cache the record (note: with no isStatus field, hence non-status
retention), then immediately forward to the vault; the send outcome is
ignored. -/
def captureViewOnce (cfg : Config) (st : LoggerState) (msg : Message)
    (senderName : String) (groupName : Option String) (now : Nat)
    (downloadOk : Bool) (sendOk : Bool) : StepResult :=
  if excludedCheck cfg groupName then noopR st
  else
    match voContent msg.message with
    | none => noopR st
    | some c =>
      match voPick c with
      | none => noopR st
      | some (mt, mm, ext, cap) =>
        if !(isMediaDownloadable (some mm)) then noopR st
        else if !downloadOk then ⟨st, [], [mm]⟩
        else
          let filename := "view-once-" ++ toString st.nextId ++ "." ++ ext
          let filepath := cfg.tempStorage ++ "/" ++ filename
          let senderId := sanitizeJid (jsOrStr msg.key.participant msg.key.remoteJid)
          let r : MediaRecord :=
            ⟨filepath, mt, senderName, senderId, msg.messageTimestamp,
              groupName, cap, false, now⟩
          let st1 :=
            { st with
                files := setFile st.files filepath now
                mediaCache := mapSet st.mediaCache msg.key.id r
                nextId := st.nextId + 1 }
          let res := sendMediaToVault cfg st1.files r false sendOk
          ⟨st1, res.2, [mm]⟩

/-! ### Deleted-message recovery (stealth-logger.js lines 558-618) -/

/-- deleteFromTempStorage: remove the file if present, then drop the
media-cache record. -/
def deleteFromTempStorage (st : LoggerState) (fp : String) (mid : String) :
    LoggerState :=
  { st with
      files := removeFile st.files fp
      mediaCache := mapDelete st.mediaCache mid }

/-- handleDeletedMessage: media cache first; on a hit forward with the
deleted flag, clean up file and media record only on success, and
always purge the text-cache duplicate; otherwise fall back to the text
cache. -/
def handleDeletedMessage (cfg : Config) (st : LoggerState) (mid : String)
    (sendOk : Bool) : StepResult :=
  match mapGet st.mediaCache mid with
  | some r =>
    let res := sendMediaToVault cfg st.files r true sendOk
    let st1 := if res.1 then deleteFromTempStorage st r.filepath mid else st
    let st2 := { st1 with textCache := mapDelete st1.textCache mid }
    ⟨st2, res.2, []⟩
  | none =>
    match mapGet st.textCache mid with
    | some t =>
      ⟨{ st with textCache := mapDelete st.textCache mid },
        sendTextToVault cfg t, []⟩
    | none => noopR st

/-! ### handleEphemeralMessage (stealth-logger.js lines 627-676) -/

def hasVOWrapper (c : MsgContent) : Bool :=
  c.viewOnceMessage.isSome || c.viewOnceMessageV2.isSome ||
    c.viewOnceMessageV2Extension.isSome

def hasVOFlagMedia (c : MsgContent) : Bool :=
  ((c.imageMessage.map MediaObj.viewOnce).getD false) ||
    ((c.videoMessage.map MediaObj.viewOnce).getD false) ||
    ((c.audioMessage.map MediaObj.viewOnce).getD false)

def hasAnyMedia (c : MsgContent) : Bool :=
  c.imageMessage.isSome || c.videoMessage.isSome || c.audioMessage.isSome ||
    c.documentMessage.isSome || c.stickerMessage.isSome

/-- handleEphemeralMessage: unwrap the ephemeral envelope, route inner
view-once content to captureViewOnce, otherwise cache as text and (when
media is present) as media. -/
def handleEphemeralMessage (cfg : Config) (st : LoggerState) (msg : Message)
    (senderName : String) (groupName : Option String) (now : Nat)
    (downloadOk : Bool) (sendOk : Bool) : StepResult :=
  if excludedCheck cfg groupName then noopR st
  else
    match msg.message with
    | none => noopR st
    | some mc =>
      match mc.ephemeralMessage with
      | none => noopR st
      | some innerOpt =>
        match innerOpt with
        | none => noopR st
        | some content =>
          let modifiedMsg : Message :=
            { msg with message := some content }
          if hasVOWrapper content then
            captureViewOnce cfg st modifiedMsg senderName groupName now downloadOk sendOk
          else if hasVOFlagMedia content then
            captureViewOnce cfg st modifiedMsg senderName groupName now downloadOk sendOk
          else
            let st1 := cacheTextMessage cfg st modifiedMsg senderName groupName now
            if hasAnyMedia content then
              cacheMediaMessage cfg st1 modifiedMsg senderName groupName now downloadOk
            else noopR st1

/-! ### The account-manager dispatch for one incoming message
(account-manager handleMessage, stealth portion): view-once capture
happens before the fromMe check; non-own messages are then cached as
text, as regular media when not view-once, and routed through the
ephemeral handler when wrapped. -/

def processIncoming (cfg : Config) (st : LoggerState) (msg : Message)
    (senderName : String) (groupName : Option String) (now : Nat)
    (downloadOk : Bool) (sendOk : Bool) : StepResult :=
  let isVO :=
    match msg.message with
    | none => false
    | some c => hasVOWrapper c || hasVOFlagMedia c
  let r0 :=
    if isVO then
      captureViewOnce cfg st msg senderName groupName now downloadOk sendOk
    else noopR st
  if msg.key.fromMe then r0
  else
    let st1 := cacheTextMessage cfg r0.state msg senderName groupName now
    let r2 :=
      if !isVO &&
          (match msg.message with
           | none => false
           | some c => hasAnyMedia c) then
        cacheMediaMessage cfg st1 msg senderName groupName now downloadOk
      else noopR st1
    let r3 :=
      match msg.message with
      | none => noopR r2.state
      | some c =>
        if c.ephemeralMessage.isSome then
          handleEphemeralMessage cfg r2.state msg senderName groupName now downloadOk sendOk
        else noopR r2.state
    ⟨r3.state, r0.forwards ++ r2.forwards ++ r3.forwards,
      r0.downloads ++ r2.downloads ++ r3.downloads⟩

/-! ### cleanup (stealth-logger.js lines 835-910) -/

/-- cleanup: expire media-cache entries by the two-tier policy,
deleting each expired entry file; then scan the remaining directory
entries, deleting any file older than the tag-based tier age
(regardless of whether a live record still references it); then expire
text-cache entries. -/
def cleanup (cfg : Config) (st : LoggerState) (now : Nat) : LoggerState :=
  let expiredMedia : String × MediaRecord → Bool :=
    fun e => decide (mediaMaxAge cfg e.2 < now - e.2.savedAt)
  let files1 := st.files.filter
    (fun f => !(st.mediaCache.any (fun e => expiredMedia e && e.2.filepath == f.1)))
  let mc1 := st.mediaCache.filter (fun e => !(expiredMedia e))
  let files2 := files1.filter
    (fun f => !(decide (scanMaxAge cfg f.1 < now - f.2)))
  let tc1 := st.textCache.filter
    (fun e => !(decide (textMaxAge cfg e.2 < now - e.2.cachedAt)))
  { st with mediaCache := mc1, textCache := tc1, files := files2 }

/-! ### Spec-side definition for the exclusion-matching claim -/

/-- Modelled from the claim wording (not from the source): plain
case-insensitive substring match in either direction between group
name and pattern. -/
def specCiSubstringMatch (gn p : String) : Bool :=
  strHasSub (lowerChars gn.toList) (lowerChars p.toList) ||
    strHasSub (lowerChars p.toList) (lowerChars gn.toList)

/-! ### Fold over a sequence of cacheTextMessage calls (for the
eviction-bound claim) -/

structure CacheTextArgs where
  msg : Message
  senderName : String
  groupName : Option String
  now : Nat

def runTextInserts (cfg : Config) (st : LoggerState) (l : List CacheTextArgs) :
    LoggerState :=
  l.foldl
    (fun s a => cacheTextMessage cfg s a.msg a.senderName a.groupName a.now) st

/-- The guards of cacheTextMessage that decide whether an insertion is
performed at all. -/
def textInsertTaken (cfg : Config) (msg : Message) (gn : Option String) : Bool :=
  (!(excludedCheck cfg gn)) &&
    ((!(getMessageContent msg.message == "")) && (!msg.key.fromMe))

/-! ### Concrete scenario data used by individual claims -/

/-- A plain text message. -/
def mkTextMsg (id txt jid : String) : Message :=
  ⟨⟨id, jid, none, false⟩,
    some (.mk (some txt) none none none none none none none none none none),
    1700000000⟩

/-- Vault-configured account with masking on. -/
def cfgV : Config := ⟨[], 1000, none, none, some "+19998887777", true, "t/acc"⟩

/-- A downloadable view-once image inside a viewOnceMessageV2 wrapper. -/
def voImgObj : MediaObj :=
  ⟨some [1, 2], none, some "/dp", none, some "pic", false, none, none⟩

def msgVO : Message :=
  ⟨⟨"v1", "123@s.whatsapp.net", none, false⟩,
    some (.mk none none none none none none none none
      (some (some (onlyImage (some voImgObj)))) none none),
    1700000001⟩

/-- C1 scenario: one message cached in both caches (media with
caption), with the backing file on disk. -/
def cfgC1 : Config := ⟨[], 100, none, none, some "+12223334444", true, "t"⟩

def mrecC1 : MediaRecord :=
  ⟨"t/media-9.jpg", .image, "A", "111@s.whatsapp.net", 100, none, "pic", false, 0⟩

def trecC1 : TextRecord := ⟨"pic", "A", "111@s.whatsapp.net", 100, none, false, 0⟩

def stC1 : LoggerState :=
  ⟨[("m1", trecC1)], [("m1", mrecC1)], [("t/media-9.jpg", 0)], 0⟩

/-- C3 scenario: cap of two, three insertions. -/
def cfgC3 : Config := ⟨[], 2, none, none, none, false, "t"⟩

def argsC3 : List CacheTextArgs :=
  [⟨mkTextMsg "m1" "a" "1@s.whatsapp.net", "A", none, 1⟩,
   ⟨mkTextMsg "m2" "b" "2@s.whatsapp.net", "B", none, 2⟩,
   ⟨mkTextMsg "m3" "c" "3@s.whatsapp.net", "C", none, 3⟩]

def stC3 : LoggerState := runTextInserts cfgC3 initialState (argsC3.take 2)

/-- C4 scenario: one status-class and one non-status record, both aged
25 hours at sweep time, under the default 24h/68h policy. -/
def cfgC4 : Config := ⟨[], 100, none, none, none, false, "t/a"⟩

def mrecC4s : MediaRecord :=
  ⟨"t/a/status-1.jpg", .image, "S", "1@s.whatsapp.net", 0, none, "", true, 0⟩

def mrecC4m : MediaRecord :=
  ⟨"t/a/media-2.jpg", .image, "S", "1@s.whatsapp.net", 0, none, "", false, 0⟩

def stC4 : LoggerState :=
  ⟨[], [("s1", mrecC4s), ("m1", mrecC4m)],
    [("t/a/status-1.jpg", 0), ("t/a/media-2.jpg", 0)], 0⟩

/-- 25 hours in milliseconds. -/
def hrs25 : Nat := 90000000

/-- C5 scenario: a regular downloadable image message. -/
def imgC5 : MediaObj := ⟨some [1], none, some "/d", none, some "pic", false, none, none⟩

def msgC5 : Message :=
  ⟨⟨"x1", "111@s.whatsapp.net", none, false⟩,
    some (.mk none none (some imgC5) none none none none none none none none),
    100⟩

def cfgC5 : Config := ⟨[], 100, none, none, some "+12223334444", false, "t/a"⟩

/-- C7 scenario: a pattern consisting of one double-quote character.
It matches the group name under plain case-insensitive substring
matching, but normalizes to the empty string, which the implementation
ignores. -/
def cfgC7 : Config := ⟨["\""], 100, none, none, none, false, "t/a"⟩

def cfgC7ok : Config := ⟨["family"], 100, none, none, none, false, "t/a"⟩

/-- C9 scenario config (vault configured, masking enabled). -/
def cfgC9 : Config := ⟨[], 100, none, none, some "+19998887777", true, "t/a"⟩

def msgC9 : Message := mkTextMsg "m1" "hello" "91xxxxxxxx@net"

/-- The media-cache record produced by capturing msgVO under cfgV
(note isStatus = false and the view-once file name). -/
def recC8 : MediaRecord :=
  ⟨"t/acc/view-once-0.jpg", .image, "S", "123@s.whatsapp.net", 1700000001,
    none, "pic", false, 0⟩

/-! ### Helper lemmas about the map and file-set model -/

theorem mapGet_mapDelete_self (m : List (String × α)) (k : String) :
    mapGet (mapDelete m k) k = none := by
  unfold mapGet mapDelete
  rw [List.find?_eq_none.mpr]
  · rfl
  · intro x hx
    have hmem := List.mem_filter.mp hx
    simpa using hmem.2

theorem hasFile_removeFile_self (fs : List (String × Nat)) (p : String) :
    hasFile (removeFile fs p) p = false := by
  unfold hasFile removeFile
  rw [Bool.eq_false_iff]
  intro hcontra
  obtain ⟨x, hx, hxp⟩ := List.any_eq_true.mp hcontra
  have hmem := List.mem_filter.mp hx
  rw [hxp] at hmem
  simp at hmem

theorem hasFile_setFile_self (fs : List (String × Nat)) (p : String) (t : Nat) :
    hasFile (setFile fs p t) p = true := by
  unfold hasFile setFile
  by_cases h : fs.any (fun e => e.1 == p)
  · rw [if_pos h]
    obtain ⟨e, he, hep⟩ := List.any_eq_true.mp h
    refine List.any_eq_true.mpr ⟨(p, t), List.mem_map.mpr ⟨e, he, by simp [hep]⟩, by simp⟩
  · rw [if_neg h]
    simp

theorem mapSet_length_le (m : List (String × α)) (k : String) (v : α) :
    (mapSet m k v).length ≤ m.length + 1 := by
  unfold mapSet
  split
  · simp
  · simp

theorem mapDelete_cons_head_length (h : String × α) (t : List (String × α)) :
    (mapDelete (h :: t) h.1).length ≤ t.length := by
  unfold mapDelete
  rw [List.filter_cons]
  simp only [beq_self_eq_true, Bool.not_true, Bool.false_eq_true, if_false]
  exact List.length_filter_le _ t

theorem mapDelete_cons_of_nodup (h : String × α) (t : List (String × α))
    (hnd : ((h :: t).map Prod.fst).Nodup) : mapDelete (h :: t) h.1 = t := by
  unfold mapDelete
  rw [List.filter_cons]
  simp only [beq_self_eq_true, Bool.not_true, Bool.false_eq_true, if_false]
  apply List.filter_eq_self.mpr
  intro p hp
  have hne : h.1 ∉ t.map Prod.fst := by
    rw [List.map_cons] at hnd
    exact (List.nodup_cons.mp hnd).1
  have hpk : p.1 ≠ h.1 := fun hc => hne (hc ▸ List.mem_map.mpr ⟨p, hp, rfl⟩)
  simpa using hpk

theorem textEvict_length_lt (cfg : Config) (hcap : 0 < cfg.maxTextCache)
    (tc : List (String × TextRecord)) (h : tc.length ≤ cfg.maxTextCache) :
    (textEvict cfg tc).length < cfg.maxTextCache := by
  cases tc with
  | nil =>
    unfold textEvict
    split
    · simpa using hcap
    · simpa using hcap
  | cons hd tl =>
    by_cases hge : cfg.maxTextCache ≤ (hd :: tl).length
    · have hev : textEvict cfg (hd :: tl) = mapDelete (hd :: tl) hd.1 := by
        unfold textEvict
        rw [if_pos hge]
      rw [hev]
      have h1 := mapDelete_cons_head_length hd tl
      simp only [List.length_cons] at h
      omega
    · have hev : textEvict cfg (hd :: tl) = hd :: tl := by
        unfold textEvict
        rw [if_neg hge]
      rw [hev]
      omega

theorem cacheText_length_le (cfg : Config) (hcap : 0 < cfg.maxTextCache)
    (st : LoggerState) (msg : Message) (sn : String) (gn : Option String)
    (now : Nat) (hst : st.textCache.length ≤ cfg.maxTextCache) :
    (cacheTextMessage cfg st msg sn gn now).textCache.length ≤ cfg.maxTextCache := by
  unfold cacheTextMessage
  split
  · exact hst
  · split
    · exact hst
    · have h1 := mapSet_length_le (textEvict cfg st.textCache) msg.key.id
        (mkTextRecord msg sn gn now)
      have h2 := textEvict_length_lt cfg hcap st.textCache hst
      simp only
      omega

theorem runTextInserts_length_le (cfg : Config) (hcap : 0 < cfg.maxTextCache)
    (l : List CacheTextArgs) (st : LoggerState)
    (hst : st.textCache.length ≤ cfg.maxTextCache) :
    (runTextInserts cfg st l).textCache.length ≤ cfg.maxTextCache := by
  induction l generalizing st with
  | nil => exact hst
  | cons a t ih =>
    exact ih _ (cacheText_length_le cfg hcap st a.msg a.senderName a.groupName a.now hst)

theorem isMediaDownloadable_iff (m : MediaObj) :
    isMediaDownloadable (some m) = true ↔
      ((∃ k : Bytes, (m.mediaKey = some k ∨ m.fileEncSha256 = some k) ∧ k ≠ []) ∧
       (∃ u : String, (m.directPath = some u ∨ m.url = some u) ∧
          trimChars u.toList ≠ [])) := by
  rcases m with ⟨mk, fe, dp, u, cap, vo, mt, fn⟩
  simp only [isMediaDownloadable, isValidEncryptionKey, isValidUrl]
  cases mk <;> cases fe <;> cases dp <;> cases u <;>
    simp [List.isEmpty_iff] <;> aesop

theorem cacheMedia_downloads_validated (cfg : Config) (st : LoggerState)
    (msg : Message) (sn : String) (gn : Option String) (now : Nat) (dOk : Bool)
    (mo : MediaObj)
    (h : mo ∈ (cacheMediaMessage cfg st msg sn gn now dOk).downloads) :
    isMediaDownloadable (some mo) = true := by
  unfold cacheMediaMessage at h
  repeat' split at h
  all_goals simp_all [noopR]

theorem captureViewOnce_downloads_validated (cfg : Config) (st : LoggerState)
    (msg : Message) (sn : String) (gn : Option String) (now : Nat)
    (dOk sOk : Bool) (mo : MediaObj)
    (h : mo ∈ (captureViewOnce cfg st msg sn gn now dOk sOk).downloads) :
    isMediaDownloadable (some mo) = true := by
  unfold captureViewOnce at h
  repeat' split at h
  all_goals simp_all [noopR]

/-! ### Claim theorems -/

/-- C1, counterexample to the claim as stated: with the message id in
both caches and the forwarder reporting failure (sendOk = false), the
backing file and the media-cache record are retained, but the
text-cache record for the id is removed anyway — so removal from both
caches is not gated on forwarder success. -/
theorem c1_both_caches_purged_on_failure :
    mapGet stC1.textCache "m1" = some trecC1
    ∧ (handleDeletedMessage cfgC1 stC1 "m1" false).forwards.length = 1
    ∧ mapGet (handleDeletedMessage cfgC1 stC1 "m1" false).state.textCache "m1" = none
    ∧ mapGet (handleDeletedMessage cfgC1 stC1 "m1" false).state.mediaCache "m1" = some mrecC1
    ∧ hasFile (handleDeletedMessage cfgC1 stC1 "m1" false).state.files mrecC1.filepath = true := by
  decide

/-- C1, amended: on a delete-notification whose messageId is found in
the media cache, the pipeline forwards the media record (not the text
record) with the recovered flag; only on forwarder success it deletes
the backing file and removes the media-cache record; on failure the
file and the media-cache record are untouched; the text-cache entry
for the id is removed unconditionally. -/
theorem c1_recovery_semantics (cfg : Config) (st : LoggerState) (mid : String)
    (r : MediaRecord) (sendOk : Bool) (v : String)
    (hv : cfg.vaultNumber = some v)
    (hm : mapGet st.mediaCache mid = some r)
    (hf : hasFile st.files r.filepath = true) :
    (handleDeletedMessage cfg st mid sendOk).forwards =
      [ForwardCall.media r.mtype
        (maskPhoneNumber cfg.maskEnabled (getPhoneFromJid r.senderId))
        r.sender r.groupName r.caption true r.filepath]
    ∧ (sendOk = true →
        mapGet (handleDeletedMessage cfg st mid sendOk).state.mediaCache mid = none ∧
        hasFile (handleDeletedMessage cfg st mid sendOk).state.files r.filepath = false)
    ∧ (sendOk = false →
        (handleDeletedMessage cfg st mid sendOk).state.mediaCache = st.mediaCache ∧
        (handleDeletedMessage cfg st mid sendOk).state.files = st.files)
    ∧ mapGet (handleDeletedMessage cfg st mid sendOk).state.textCache mid = none := by
  unfold handleDeletedMessage
  rw [hm]
  unfold sendMediaToVault
  rw [hv]
  simp only [hf, if_true]
  refine ⟨trivial, ?_, ?_, ?_⟩
  · intro hs
    rw [if_pos hs]
    unfold deleteFromTempStorage
    exact ⟨mapGet_mapDelete_self _ _, hasFile_removeFile_self _ _⟩
  · intro hs
    rw [if_neg (by rw [hs]; simp)]
    exact ⟨rfl, rfl⟩
  · exact mapGet_mapDelete_self _ _

/-- Witness for C1 at a concrete successful recovery. -/
theorem c1_recovery_semantics_witness :
    (handleDeletedMessage cfgC1 stC1 "m1" true).forwards =
      [ForwardCall.media mrecC1.mtype
        (maskPhoneNumber cfgC1.maskEnabled (getPhoneFromJid mrecC1.senderId))
        mrecC1.sender mrecC1.groupName mrecC1.caption true mrecC1.filepath]
    ∧ mapGet (handleDeletedMessage cfgC1 stC1 "m1" true).state.mediaCache "m1" = none
    ∧ hasFile (handleDeletedMessage cfgC1 stC1 "m1" true).state.files mrecC1.filepath = false
    ∧ mapGet (handleDeletedMessage cfgC1 stC1 "m1" true).state.textCache "m1" = none := by
  have h := c1_recovery_semantics cfgC1 stC1 "m1" mrecC1 true "+12223334444"
    rfl (by decide) (by decide)
  exact ⟨h.1, (h.2.1 rfl).1, (h.2.1 rfl).2, h.2.2.2⟩

/-- C2, counterexample to the claim as stated: re-entering
captureViewOnce with the same message id (duplicate delivery) forwards
a second time — two invocations produce two forwards in total, even
though the id is already present in the media cache when the handler
is re-entered; there is no cache-state guard. -/
theorem c2_reentry_double_forward :
    (captureViewOnce cfgV initialState msgVO "S" none 0 true true).forwards.length +
      (captureViewOnce cfgV
        (captureViewOnce cfgV initialState msgVO "S" none 0 true true).state
        msgVO "S" none 1 true true).forwards.length = 2
    ∧ (mapGet (captureViewOnce cfgV initialState msgVO "S" none 0 true true).state.mediaCache
        "v1").isSome = true := by
  decide

/-- C2, amended: each invocation of captureViewOnce on a view-once
message forwards it exactly once (when extraction, validation,
download and send all go through), regardless of the existing cache
state for that message id — the handler performs no cache-state guard,
so a duplicated delivery is forwarded once per delivery. -/
theorem c2_capture_forwards_once_per_invocation (cfg : Config)
    (st : LoggerState) (msg : Message) (sn : String) (gn : Option String)
    (now : Nat) (c : MsgContent) (mt : MediaType) (mm : MediaObj)
    (ext cap : String) (v : String)
    (hchk : excludedCheck cfg gn = false)
    (hvo : voContent msg.message = some c)
    (hp : voPick c = some (mt, mm, ext, cap))
    (hdl : isMediaDownloadable (some mm) = true)
    (hv : cfg.vaultNumber = some v) :
    (captureViewOnce cfg st msg sn gn now true true).forwards.length = 1 := by
  unfold captureViewOnce
  rw [if_neg (by simp [hchk])]
  simp only [hvo, hp, hdl]
  simp only [sendMediaToVault, hv, hasFile_setFile_self]
  simp

/-- Witness for C2 at the concrete view-once capture. -/
theorem c2_capture_forwards_once_per_invocation_witness :
    (captureViewOnce cfgV initialState msgVO "S" none 0 true true).forwards.length = 1 :=
  c2_capture_forwards_once_per_invocation cfgV initialState msgVO "S" none 0
    (onlyImage (some voImgObj)) .image voImgObj "jpg" "pic" "+19998887777"
    rfl rfl rfl (by decide) rfl

/-- C3: for any positive configured cap, the text cache size never
exceeds the cap over any sequence of cacheTextMessage calls, and an
insertion performed at capacity evicts exactly the first (least
recently inserted) entry still present before inserting the new one. -/
theorem c3_text_cache_eviction_bound (cfg : Config)
    (hcap : 0 < cfg.maxTextCache) :
    (∀ l : List CacheTextArgs,
      (runTextInserts cfg initialState l).textCache.length ≤ cfg.maxTextCache)
    ∧
    (∀ (st : LoggerState) (msg : Message) (sn : String) (gn : Option String)
        (now : Nat),
      (st.textCache.map Prod.fst).Nodup →
      textInsertTaken cfg msg gn = true →
      cfg.maxTextCache ≤ st.textCache.length →
      (cacheTextMessage cfg st msg sn gn now).textCache =
        mapSet (st.textCache.drop 1) msg.key.id (mkTextRecord msg sn gn now)) := by
  constructor
  · intro l
    exact runTextInserts_length_le cfg hcap l initialState (by simp [initialState])
  · intro st msg sn gn now hnd htaken hge
    simp only [textInsertTaken, Bool.and_eq_true, Bool.not_eq_true'] at htaken
    obtain ⟨hchk, htext, hfm⟩ := htaken
    unfold cacheTextMessage
    rw [if_neg (by simp [hchk])]
    rw [if_neg (by simp [htext, hfm])]
    cases htc : st.textCache with
    | nil =>
      rw [htc] at hge
      simp at hge
      omega
    | cons h t =>
      have hnd2 : ((h :: t).map Prod.fst).Nodup := htc ▸ hnd
      have hge2 : cfg.maxTextCache ≤ (h :: t).length := htc ▸ hge
      have hev : textEvict cfg (h :: t) = mapDelete (h :: t) h.1 := by
        unfold textEvict
        rw [if_pos hge2]
      simp only [hev, mapDelete_cons_of_nodup h t hnd2]
      rfl

/-- Witness for C3: cap of two, three insertions stay within the cap,
and the third insertion evicts exactly the oldest entry. -/
theorem c3_text_cache_eviction_bound_witness :
    (runTextInserts cfgC3 initialState argsC3).textCache.length ≤ cfgC3.maxTextCache
    ∧ (cacheTextMessage cfgC3 stC3 (mkTextMsg "m3" "c" "3@s.whatsapp.net") "C" none 3).textCache =
        mapSet (stC3.textCache.drop 1) (mkTextMsg "m3" "c" "3@s.whatsapp.net").key.id
          (mkTextRecord (mkTextMsg "m3" "c" "3@s.whatsapp.net") "C" none 3) := by
  have h := c3_text_cache_eviction_bound cfgC3 (by decide)
  exact ⟨h.1 argsC3,
    h.2 stC3 (mkTextMsg "m3" "c" "3@s.whatsapp.net") "C" none 3
      (by decide) (by decide) (by decide)⟩

/-- C4: the cleanup sweep removes a media-cache record iff its age
exceeds the policy max age (statusCacheDuration for status-class,
mediaCacheDuration otherwise, with defaults 24h and 68h); a record
within its max age is never removed, and the file of every removed
record is deleted. -/
theorem c4_sweep_expiry (cfg : Config) (st : LoggerState) (now : Nat)
    (mid : String) (r : MediaRecord) :
    ((mid, r) ∈ (cleanup cfg st now).mediaCache ↔
      ((mid, r) ∈ st.mediaCache ∧ now - r.savedAt ≤ mediaMaxAge cfg r))
    ∧ ((mid, r) ∈ st.mediaCache → mediaMaxAge cfg r < now - r.savedAt →
        hasFile (cleanup cfg st now).files r.filepath = false) := by
  constructor
  · simp [cleanup, List.mem_filter, Nat.not_lt]
  · intro hmem hexp
    rw [Bool.eq_false_iff]
    intro hcontra
    simp only [cleanup, hasFile] at hcontra
    obtain ⟨f, hf, hfp⟩ := List.any_eq_true.mp hcontra
    have hf1 := List.mem_filter.mp hf
    have hf2 := List.mem_filter.mp hf1.1
    have hkeep := hf2.2
    simp only [Bool.not_eq_true'] at hkeep
    rw [List.any_eq_false] at hkeep
    have := hkeep (mid, r) hmem
    simp only [beq_iff_eq] at hfp
    simp [hexp, hfp] at this

/-- Witness for C4, the two-tier sweep scenario: at the default policy
a status record aged 25 hours is removed (with its file) while a
non-status record aged 25 hours is retained. -/
theorem c4_sweep_expiry_witness :
    ("s1", mrecC4s) ∉ (cleanup cfgC4 stC4 hrs25).mediaCache
    ∧ ("m1", mrecC4m) ∈ (cleanup cfgC4 stC4 hrs25).mediaCache
    ∧ hasFile (cleanup cfgC4 stC4 hrs25).files mrecC4s.filepath = false := by
  refine ⟨fun hmem => ?_, ?_, ?_⟩
  · have hx := ((c4_sweep_expiry cfgC4 stC4 hrs25 "s1" mrecC4s).1).mp hmem
    revert hx
    decide
  · exact ((c4_sweep_expiry cfgC4 stC4 hrs25 "m1" mrecC4m).1).mpr ⟨by decide, by decide⟩
  · exact (c4_sweep_expiry cfgC4 stC4 hrs25 "s1" mrecC4s).2 (by decide) (by decide)

/-- C5: validation passes iff the object carries a non-empty byte
sequence in one of the two key fields and a string with non-blank
trimmed content in one of the two URL fields, and both the regular
media path and the view-once path hand an object to the download call
only when validation passed. -/
theorem c5_download_gate :
    (∀ m : MediaObj,
      isMediaDownloadable (some m) = true ↔
        ((∃ k : Bytes, (m.mediaKey = some k ∨ m.fileEncSha256 = some k) ∧ k ≠ []) ∧
         (∃ u : String, (m.directPath = some u ∨ m.url = some u) ∧
            trimChars u.toList ≠ [])))
    ∧
    (∀ (cfg : Config) (st : LoggerState) (msg : Message) (sn : String)
        (gn : Option String) (now : Nat) (dOk : Bool) (mo : MediaObj),
      mo ∈ (cacheMediaMessage cfg st msg sn gn now dOk).downloads →
      isMediaDownloadable (some mo) = true)
    ∧
    (∀ (cfg : Config) (st : LoggerState) (msg : Message) (sn : String)
        (gn : Option String) (now : Nat) (dOk sOk : Bool) (mo : MediaObj),
      mo ∈ (captureViewOnce cfg st msg sn gn now dOk sOk).downloads →
      isMediaDownloadable (some mo) = true) :=
  ⟨isMediaDownloadable_iff, cacheMedia_downloads_validated,
    captureViewOnce_downloads_validated⟩

/-- Witness for C5: a concrete downloadable object, both via the
characterization and via a media object that actually reached the
download call of the view-once path. -/
theorem c5_download_gate_witness :
    isMediaDownloadable (some imgC5) = true ∧
      isMediaDownloadable (some voImgObj) = true := by
  constructor
  · exact (c5_download_gate.1 imgC5).mpr
      ⟨⟨[1], Or.inl rfl, by decide⟩, ⟨"/d", Or.inl rfl, by decide⟩⟩
  · exact c5_download_gate.2.2 cfgV initialState msgVO "S" none 0 true true
      voImgObj (by decide)

/-- C6, counterexample to the claim as stated: dispatching a single
image message carrying a caption puts the same messageId into both the
text cache (the caption, via getMessageContent) and the media cache,
so a messageId is not in at most one cache. -/
theorem c6_message_in_both_caches :
    (mapGet (processIncoming cfgC5 initialState msgC5 "A" none 0 true true).state.textCache
      "x1").isSome = true
    ∧ (mapGet (processIncoming cfgC5 initialState msgC5 "A" none 0 true true).state.mediaCache
      "x1").isSome = true := by
  decide

/-- C6, amended: a messageId can be in both caches at once (media with
caption); media takes precedence at recovery time: the
delete-notification path checks the media cache first, forwards only
the media record, and purges the text-cache duplicate. -/
theorem c6_media_precedence_on_recovery (cfg : Config) (st : LoggerState)
    (mid : String) (mr : MediaRecord) (tr : TextRecord) (sendOk : Bool)
    (v : String)
    (hv : cfg.vaultNumber = some v)
    (hm : mapGet st.mediaCache mid = some mr)
    (_ht : mapGet st.textCache mid = some tr)
    (hf : hasFile st.files mr.filepath = true) :
    (handleDeletedMessage cfg st mid sendOk).forwards =
      [ForwardCall.media mr.mtype
        (maskPhoneNumber cfg.maskEnabled (getPhoneFromJid mr.senderId))
        mr.sender mr.groupName mr.caption true mr.filepath]
    ∧ mapGet (handleDeletedMessage cfg st mid sendOk).state.textCache mid = none := by
  unfold handleDeletedMessage
  rw [hm]
  unfold sendMediaToVault
  rw [hv]
  simp only [hf, if_true]
  exact ⟨trivial, mapGet_mapDelete_self _ _⟩

/-- Witness for C6 at the concrete state with the id in both caches. -/
theorem c6_media_precedence_on_recovery_witness :
    (handleDeletedMessage cfgC1 stC1 "m1" false).forwards =
      [ForwardCall.media mrecC1.mtype
        (maskPhoneNumber cfgC1.maskEnabled (getPhoneFromJid mrecC1.senderId))
        mrecC1.sender mrecC1.groupName mrecC1.caption true mrecC1.filepath]
    ∧ mapGet (handleDeletedMessage cfgC1 stC1 "m1" false).state.textCache "m1" = none :=
  c6_media_precedence_on_recovery cfgC1 stC1 "m1" mrecC1 trecC1 false
    "+12223334444" rfl (by decide) (by decide) (by decide)

/-- C7, counterexample to the claim as stated: the pattern consisting
of a single double-quote character matches the group name under plain
case-insensitive substring matching, yet the implementation does not
exclude the group (the pattern normalizes to the empty string and is
ignored), and the message is cached. -/
theorem c7_quote_pattern_matches_but_not_excluded :
    specCiSubstringMatch "do\"nt" "\"" = true
    ∧ isGroupExcluded cfgC7 "do\"nt" = false
    ∧ (cacheTextMessage cfgC7 initialState (mkTextMsg "t1" "hi" "9@s.whatsapp.net")
        "A" (some "do\"nt") 0).textCache.length = 1 := by
  decide

/-- C7, amended: for every message kind, when the group name is
matched by the implementation matcher (case-insensitive substring in
either direction on normalized names, where patterns normalizing to
the empty string never match), the handler aborts with no cache entry,
no file written, no forward, and no download. -/
theorem c7_exclusion_short_circuit (cfg : Config) (st : LoggerState)
    (msg : Message) (sn g : String) (now : Nat) (dOk sOk : Bool)
    (hg : g ≠ "") (hex : isGroupExcluded cfg g = true) :
    cacheTextMessage cfg st msg sn (some g) now = st
    ∧ cacheMediaMessage cfg st msg sn (some g) now dOk = noopR st
    ∧ captureViewOnce cfg st msg sn (some g) now dOk sOk = noopR st
    ∧ handleEphemeralMessage cfg st msg sn (some g) now dOk sOk = noopR st := by
  have hchk : excludedCheck cfg (some g) = true := by
    simp [excludedCheck, hex, hg]
  refine ⟨?_, ?_, ?_, ?_⟩
  · unfold cacheTextMessage; rw [if_pos hchk]
  · unfold cacheMediaMessage; rw [if_pos hchk]
  · unfold captureViewOnce; rw [if_pos hchk]
  · unfold handleEphemeralMessage; rw [if_pos hchk]

/-- Witness for C7 at a concrete excluded group. -/
theorem c7_exclusion_short_circuit_witness :
    cacheTextMessage cfgC7ok initialState (mkTextMsg "t1" "hi" "9@s.whatsapp.net")
      "A" (some "Family Chat") 0 = initialState
    ∧ cacheMediaMessage cfgC7ok initialState (mkTextMsg "t1" "hi" "9@s.whatsapp.net")
      "A" (some "Family Chat") 0 true = noopR initialState
    ∧ captureViewOnce cfgC7ok initialState (mkTextMsg "t1" "hi" "9@s.whatsapp.net")
      "A" (some "Family Chat") 0 true true = noopR initialState
    ∧ handleEphemeralMessage cfgC7ok initialState (mkTextMsg "t1" "hi" "9@s.whatsapp.net")
      "A" (some "Family Chat") 0 true true = noopR initialState :=
  c7_exclusion_short_circuit cfgC7ok initialState
    (mkTextMsg "t1" "hi" "9@s.whatsapp.net") "A" "Family Chat" 0 true true
    (by decide) (by decide)

/-- C8: evaluating the code at the failing input.  A captured
view-once image (record is non-status, so its 68-hour retention has
not expired at 25 hours, and the record survives the sweep) still has
its backing file deleted by the temp-directory scan, because the scan
ages view-once files with the 24-hour status tier and never checks
whether a live cache record references the file. -/
theorem c8_scan_deletes_file_of_live_record :
    mapGet (captureViewOnce cfgV initialState msgVO "S" none 0 true true).state.mediaCache
      "v1" = some recC8
    ∧ hasFile (captureViewOnce cfgV initialState msgVO "S" none 0 true true).state.files
      recC8.filepath = true
    ∧ mapGet (cleanup cfgV
        (captureViewOnce cfgV initialState msgVO "S" none 0 true true).state
        hrs25).mediaCache "v1" = some recC8
    ∧ hrs25 - recC8.savedAt ≤ mediaMaxAge cfgV recC8
    ∧ hasFile (cleanup cfgV
        (captureViewOnce cfgV initialState msgVO "S" none 0 true true).state
        hrs25).files recC8.filepath = false := by
  decide

/-- C9: caching the text message m1 (hello, sender 91xxxxxxxx@net) and
then handling a delete-notification for m1 invokes the vault forwarder
exactly once, with the original text and the masked sender id
XXXXXX plus the last four characters of the sender number, and the
text cache no longer contains m1 afterwards. -/
theorem c9_round_trip :
    (handleDeletedMessage cfgC9
      (cacheTextMessage cfgC9 initialState msgC9 "Alice" none 5) "m1" true).forwards =
      [ForwardCall.text "hello" ("XXXXXX" ++ "xxxx") "Alice" none]
    ∧ mapGet (handleDeletedMessage cfgC9
        (cacheTextMessage cfgC9 initialState msgC9 "Alice" none 5) "m1"
        true).state.textCache "m1" = none := by
  decide

/-- C10: maskPhoneNumber returns inputs shorter than four characters
unchanged for either toggle value, returns XXXXXX plus the last four
characters when masking is enabled and the input has length at least
four, and returns every input unchanged when masking is disabled. -/
theorem c10_mask_phone_number :
    ∀ (p : String),
      (p.length < 4 → ∀ b : Bool, maskPhoneNumber b p = p)
      ∧ (4 ≤ p.length →
          maskPhoneNumber true p = "XXXXXX" ++ String.mk (p.toList.drop (p.length - 4)))
      ∧ maskPhoneNumber false p = p := by
  intro p
  refine ⟨?_, ?_, ?_⟩
  · intro h b
    unfold maskPhoneNumber
    rw [if_pos]
    simp [h]
  · intro h
    have hne : p ≠ "" := by
      intro hc
      rw [hc] at h
      simp at h
    unfold maskPhoneNumber
    rw [if_neg]
    · simp
    · simp [hne]
      omega
  · unfold maskPhoneNumber
    split
    · rfl
    · simp

/-- Witness for C10 at concrete identifiers. -/
theorem c10_mask_phone_number_witness :
    maskPhoneNumber true "911234" = "XXXXXX" ++ "1234"
    ∧ maskPhoneNumber true "12" = "12"
    ∧ maskPhoneNumber false "911234" = "911234" := by
  refine ⟨?_, ?_, ?_⟩
  · rw [(c10_mask_phone_number "911234").2.1 (by decide)]
    decide
  · exact (c10_mask_phone_number "12").1 (by decide) true
  · exact (c10_mask_phone_number "911234").2.2

end StealthBot
